import Mathlib

/-!
Verification development for the berty channel-manager bot.

The repository's visible source (`explos/channel-manager/main.go`) wires CLI
flags, key handling, a grpc connection and the registration of bot commands.
The Registry Engine handlers themselves (`bertyBotAddWorkspace`,
`bertyBotAddChannel`, `bertyBotRefresh`, `bertyBotRefreshAll`, `TeritoriAuth`)
and the persistence store are referenced from `main.go` but their definitions
are not part of the visible source, so they are modelled here from the
specification (each such definition carries a doc comment starting with
`Modelled from the spec:`).  Everything about the ping command, the key
handling, the command wiring and the mutex wiring is embedded directly from
`main.go`.
-/

/- ===================== Data model (spec §3) ===================== -/

/-- Modelled from the spec: `Workspace` (§3) — the workspace record of the
persistence store, whose implementation is missing from the visible source.
A stable unique identifier, the owning conversation reference and a display
name (the creation timestamp plays no role in any operation and is omitted). -/
structure Workspace where
  id : Nat
  conversationRef : String
  name : String
deriving DecidableEq

/-- Modelled from the spec: `Channel` (§3) — a tracked remote channel of a
workspace, identified by the (workspace, remote channel identifier) pair,
carrying a display name.  Following §8's note that the sync timestamp must
not count as a change for the idempotence property, the `lastSyncedAt`
metadata is not part of the modelled channel state. -/
structure Channel where
  workspaceID : Nat
  remoteChannelID : String
  name : String
deriving DecidableEq

/-- Modelled from the spec: `AccountLink` (§3) — binding between a messaging
identity and an external directory account. -/
structure AccountLink where
  messagingID : String
  externalAccountID : String
deriving DecidableEq

/-- Modelled from the spec: `RemoteChannel{id, name}` (§4.2) — one entry of a
Directory Client response. -/
structure RemoteChannel where
  id : String
  name : String
deriving DecidableEq

/-- Modelled from the spec: the distinguishable Directory Client failures
(§6): auth error, network error, rate limiting. -/
inductive DirError
  | authError
  | networkError
  | rateLimited
deriving DecidableEq

/-- Modelled from the spec: the Persistence Store (§4.1) — table-like durable
storage for workspaces, channels and account links, missing from the visible
source.  `nextWorkspaceID` provides the stable unique workspace identifiers. -/
structure Store where
  workspaces : List Workspace
  channels : List Channel
  links : List AccountLink
  nextWorkspaceID : Nat
deriving DecidableEq

def emptyStore : Store := ⟨[], [], [], 0⟩

/- ===================== Persistence Store (spec §4.1) ===================== -/

/-- Key predicate for channel rows: membership of the
(workspace, remote channel identifier) pair. -/
def chanKey (w : Nat) (r : String) (c : Channel) : Bool :=
  c.workspaceID == w && c.remoteChannelID == r

/-- A channel with the given key is recorded among the rows. -/
def chanTracked (cs : List Channel) (w : Nat) (r : String) : Bool :=
  cs.any (chanKey w r)

/-- Modelled from the spec: whether a channel with this key is tracked in the
store. -/
def trackedChannel (st : Store) (w : Nat) (r : String) : Bool :=
  chanTracked st.channels w r

/-- Modelled from the spec: `Store.listWorkspaces(conversationRef)` (§4.1). -/
def listWorkspaces (st : Store) (conv : String) : List Workspace :=
  st.workspaces.filter (fun ws => ws.conversationRef == conv)

def countWorkspaces (st : Store) (conv : String) : Nat :=
  (listWorkspaces st conv).length

/-- Modelled from the spec: `Store.listChannels(workspaceID)` (§4.1). -/
def listChannels (st : Store) (w : Nat) : List Channel :=
  st.channels.filter (fun c => c.workspaceID == w)

/-- Modelled from the spec: the Store's uniqueness check backing
`createWorkspace`'s ConflictError — a workspace name already exists for the
conversation (§3, §4.1). -/
def workspaceNameTaken (st : Store) (conv n : String) : Bool :=
  st.workspaces.any (fun ws => ws.conversationRef == conv && ws.name == n)

/-- Modelled from the spec: `Store.createWorkspace(conversationRef, name)`
(§4.1) — fails (returns `none`, the ConflictError) if the name already exists
for that conversation, otherwise appends a workspace with a fresh identifier. -/
def createWorkspace (st : Store) (conv n : String) : Store × Option Workspace :=
  if workspaceNameTaken st conv n then (st, none)
  else
    let ws : Workspace := ⟨st.nextWorkspaceID, conv, n⟩
    ({ st with workspaces := st.workspaces ++ [ws],
               nextWorkspaceID := st.nextWorkspaceID + 1 },
     some ws)

/-- Modelled from the spec: `Store.createChannel(workspaceID, remoteChannelID,
name)` (§4.1) — fails (returns `none`, the ConflictError) if the
(workspaceID, remoteChannelID) pair exists. -/
def createChannel (st : Store) (w : Nat) (r n : String) : Store × Option Channel :=
  if trackedChannel st w r then (st, none)
  else ({ st with channels := st.channels ++ [⟨w, r, n⟩] }, some ⟨w, r, n⟩)

/-- The outcome classification of a single upsert, feeding the refresh
summary counts (§4.3 step 5). -/
inductive UpsertKind
  | created
  | updated
  | unchanged
deriving DecidableEq

/-- Update in place the display name of every row matching the key. -/
def setChannelName (w : Nat) (r n : String) (cs : List Channel) : List Channel :=
  cs.map (fun c => if chanKey w r c then { c with name := n } else c)

/-- Modelled from the spec: `Store.upsertChannel(workspaceID, remoteChannelID,
attrs)` at the channel-row level (§4.1) — idempotent: inserts if absent,
updates metadata if present; reports whether the row was created, updated or
left unchanged. -/
def upsertChans (cs : List Channel) (w : Nat) (r n : String) :
    List Channel × UpsertKind :=
  match cs.find? (chanKey w r) with
  | some c =>
      (setChannelName w r n cs, if c.name == n then .unchanged else .updated)
  | none => (cs ++ [⟨w, r, n⟩], .created)

/-- Modelled from the spec: `Store.upsertChannel` lifted to the store (§4.1). -/
def upsertChannel (st : Store) (w : Nat) (r n : String) : Store × UpsertKind :=
  let res := upsertChans st.channels w r n
  ({ st with channels := res.1 }, res.2)

/-- Modelled from the spec: `Store.recordAccountLink(messagingID,
externalAccountID)` (§4.1) — replaces any prior link for the messaging
identity. -/
def recordAccountLink (st : Store) (mid extID : String) : Store :=
  { st with
    links := st.links.filter (fun l => !(l.messagingID == mid)) ++ [⟨mid, extID⟩] }

/-- Modelled from the spec: `Store.getAccountLink(messagingID)` (§4.1). -/
def getAccountLink (st : Store) (mid : String) : Option AccountLink :=
  st.links.find? (fun l => l.messagingID == mid)

/-- The links currently recorded for a messaging identity. -/
def linksFor (st : Store) (mid : String) : List AccountLink :=
  st.links.filter (fun l => l.messagingID == mid)

/- ===================== Registry Engine (spec §4.3) ===================== -/

/-- User-facing outcome of `AddWorkspace`: success, the "already exists"
result mapped from the Store's ConflictError, or the validation rejection of
an empty name. -/
inductive AddWorkspaceResult
  | createdWs (ws : Workspace)
  | alreadyExists
  | emptyName
deriving DecidableEq

/-- Modelled from the spec: `AddWorkspace(conversationRef, name)` (§4.3),
the engine operation behind the missing `bertyBotAddWorkspace` handler —
validates the name is non-empty, calls `Store.createWorkspace`, and maps the
ConflictError to the user-facing "already exists" result. -/
def AddWorkspace (st : Store) (conv n : String) : Store × AddWorkspaceResult :=
  if n = "" then (st, .emptyName)
  else
    match createWorkspace st conv n with
    | (st1, some ws) => (st1, .createdWs ws)
    | (_, none) => (st, .alreadyExists)

def workspaceExists (st : Store) (w : Nat) : Bool :=
  st.workspaces.any (fun ws => ws.id == w)

/-- User-facing outcome of `AddChannel`: success, the "already tracked"
result mapped from the ConflictError, or the NotFound user error for a
missing workspace. -/
inductive AddChannelResult
  | createdCh (c : Channel)
  | alreadyTracked
  | workspaceNotFound
deriving DecidableEq

/-- Modelled from the spec: `AddChannel(workspaceID, remoteChannelID, name)`
(§4.3), the engine operation behind the missing `bertyBotAddChannel` handler —
validates the workspace exists (NotFound becomes a user error), calls
`Store.createChannel`, and maps the ConflictError to "already tracked". -/
def AddChannel (st : Store) (w : Nat) (r n : String) : Store × AddChannelResult :=
  if !(workspaceExists st w) then (st, .workspaceNotFound)
  else
    match createChannel st w r n with
    | (st1, some c) => (st1, .createdCh c)
    | (_, none) => (st, .alreadyTracked)

/-- The refresh summary: counts of created, updated and unchanged channels
(§4.3 step 5). -/
structure RefreshSummary where
  created : Nat
  updated : Nat
  unchanged : Nat
deriving DecidableEq

def addKind (k : UpsertKind) (s : RefreshSummary) : RefreshSummary :=
  match k with
  | .created => { s with created := s.created + 1 }
  | .updated => { s with updated := s.updated + 1 }
  | .unchanged => { s with unchanged := s.unchanged + 1 }

/-- Modelled from the spec: the upsert loop of `Refresh` (§4.3 step 3) at the
channel-row level — one independently idempotent upsert per fetched remote
channel, accumulating the summary counts. -/
def syncChans (w : Nat) : List Channel → List RemoteChannel → List Channel × RefreshSummary
  | cs, [] => (cs, ⟨0, 0, 0⟩)
  | cs, rc :: rest =>
      let step := upsertChans cs w rc.id rc.name
      let res := syncChans w step.1 rest
      (res.1, addKind step.2 res.2)

/-- State part of the upsert loop. -/
def syncState (w : Nat) (cs : List Channel) (L : List RemoteChannel) : List Channel :=
  (syncChans w cs L).1

/-- Outcome of `Refresh`: a summary on success, or the user-facing errors —
missing workspace, "no linked account" (§4.3 step 1), or the single
"refresh failed" result covering every Directory Client failure. -/
inductive RefreshResult
  | refreshed (s : RefreshSummary)
  | workspaceMissing
  | noLinkedAccount
  | refreshFailed (e : DirError)
deriving DecidableEq

/-- The created-count of a refresh outcome (zero when no summary exists). -/
def createdCount : RefreshResult → Nat
  | .refreshed s => s.created
  | _ => 0

def findWorkspace (st : Store) (w : Nat) : Option Workspace :=
  st.workspaces.find? (fun ws => ws.id == w)

/-- Modelled from the spec: `Refresh(workspaceID)` (§4.3), the engine
operation behind the missing `bertyBotRefresh` handler — resolves the
workspace's owning conversation to an account link, calls the Directory
Client (`fetchChannels`, passed as a function so every possible response is
covered), and upserts each returned remote channel; channels absent from the
fetch are left untouched (the stated soft policy), and a Directory failure
surfaces as the single "refresh failed" result with no state change. -/
def Refresh (st : Store) (w : Nat)
    (fetchChannels : String → Except DirError (List RemoteChannel)) :
    Store × RefreshResult :=
  match findWorkspace st w with
  | none => (st, .workspaceMissing)
  | some ws =>
      match getAccountLink st ws.conversationRef with
      | none => (st, .noLinkedAccount)
      | some link =>
          match fetchChannels link.externalAccountID with
          | .error e => (st, .refreshFailed e)
          | .ok remotes =>
              let res := syncChans w st.channels remotes
              ({ st with channels := res.1 }, .refreshed res.2)

/-- Modelled from the spec: the sequential per-workspace loop of `RefreshAll`
(§4.3) — invokes `Refresh` on each workspace in turn and records a
per-workspace result; a failure never aborts the remaining iterations
(collect-and-report).  The Directory Client is indexed by the workspace
identifier as well, since each sequential call is a separate network
interaction that may independently fail. -/
def refreshSeq (fetch : Nat → String → Except DirError (List RemoteChannel)) :
    Store → List Workspace → Store × List (Nat × RefreshResult)
  | st, [] => (st, [])
  | st, ws :: rest =>
      let step := Refresh st ws.id (fetch ws.id)
      let res := refreshSeq fetch step.1 rest
      (res.1, (ws.id, step.2) :: res.2)

/-- Modelled from the spec: `RefreshAll(conversationRef)` (§4.3), the engine
operation behind the missing `bertyBotRefreshAll` handler — enumerates the
conversation's workspaces once and refreshes each sequentially, aggregating
per-workspace results. -/
def RefreshAll (st : Store) (conv : String)
    (fetch : Nat → String → Except DirError (List RemoteChannel)) :
    Store × List (Nat × RefreshResult) :=
  refreshSeq fetch st (listWorkspaces st conv)

/-- Outcome of `LinkAccount`: success, or the validation rejection of an
empty external account identifier. -/
inductive LinkAccountResult
  | linked
  | emptyAccountID
deriving DecidableEq

/-- Modelled from the spec: `LinkAccount(messagingID, externalAccountID)`
(§4.3), the engine operation behind the missing `TeritoriAuth` handler —
validates the external account identifier is non-empty and calls
`Store.recordAccountLink`, which replaces any prior link for the identity. -/
def LinkAccount (st : Store) (mid extID : String) : Store × LinkAccountResult :=
  if extID = "" then (st, .emptyAccountID)
  else (recordAccountLink st mid extID, .linked)

/- ============ Command wiring embedded from main.go (lines 168-210) ============ -/

/-- One `bertybot.WithCommand` registration from `main.go`, recording which
shared dependencies the handler constructor receives: the sqlite store
`dbA`, the `sync.Mutex` created at line 168, and the teritori API address. -/
structure CommandReg where
  name : String
  receivesDB : Bool
  receivesMutex : Bool
  receivesAPIAddr : Bool
deriving DecidableEq

/-- The command registrations of `main.go` lines 186-207, in source order,
with the argument wiring of each handler constructor. -/
def registeredCommands : List CommandReg :=
  [ ⟨"version", false, false, false⟩,
    ⟨"ping", false, false, false⟩,
    ⟨"add-work", true, true, false⟩,
    ⟨"add-channel", true, true, false⟩,
    ⟨"list-workspaces", true, false, false⟩,
    ⟨"list-channels", true, false, false⟩,
    ⟨"refresh-all", true, false, true⟩,
    ⟨"refresh", true, false, true⟩,
    ⟨"link-teritori-account", true, false, false⟩ ]

/-- The commands backed by Store-mutating Registry Engine operations:
AddWorkspace, AddChannel, RefreshAll, Refresh and LinkAccount. -/
def mutatingCommandNames : List String :=
  ["add-work", "add-channel", "refresh-all", "refresh", "link-teritori-account"]

/-- The mutual-exclusion property claimed for the engine: every mutating
command's handler is constructed with the engine-wide mutex. -/
def allMutatingSerialized : Prop :=
  ∀ c ∈ registeredCommands, c.name ∈ mutatingCommandNames → c.receivesMutex = true

/- ============ Ping command embedded from main.go (lines 190-195) ============ -/

/-- The fields of `bertybot.Context` consulted by the ping handler. -/
structure BotContext where
  IsReplay : Bool
  IsNew : Bool
deriving DecidableEq

/-- The ping command handler of `main.go` lines 190-195: the list of replies
it sends — it returns early (no reply) when the event is a replay or not new,
and otherwise replies "pong". -/
def pingCommandHandler (ctx : BotContext) : List String :=
  if ctx.IsReplay || !ctx.IsNew then [] else ["pong"]

/- ============ Key handling embedded from main.go (lines 136-229) ============ -/

/-- The flag-controlled options consulted by the bot run group. -/
structure RootOpts where
  generateKeys : Bool
  privatekeyPath : String
  publickeyPath : String
deriving DecidableEq

/-- Observable effects of the bot run group of `main.go` lines 136-229, in
execution order: sqlite init, `GenKeys`, `ioutil.ReadFile`, `grpc.Dial`,
`bertybot.New`, `bot.Start`. -/
inductive Effect
  | newSqliteDB
  | genKeys (privPath pubPath : String)
  | readFile (path : String)
  | grpcDial
  | newBot
  | startBot
deriving DecidableEq

/-- Outcome of the bot run group; exactly the early returns of
`main.go` lines 136-229 plus the final `bot.Start`. -/
inductive RunOutcome
  | dbInitFailed
  | genKeysFailed
  | errHelpMissingKeys
  | readKeyFailed (path : String)
  | dialFailed
  | botInitFailed
  | botStarted
deriving DecidableEq

/-- Which run-group outcomes are errors wrapping `flag.ErrHelp`: only the
missing-key-paths return of line 154 (`fmt.Errorf` with `%w` on
`flag.ErrHelp`). -/
def wrapsFlagErrHelp : RunOutcome → Bool
  | .errHelpMissingKeys => true
  | _ => false

/-- The key-path check, key loading, dial and bot construction of `main.go`
lines 153-229, given the options after the optional key generation step.
External outcomes are parameters: `readOk` for `ioutil.ReadFile`, `dialOk`
for `grpc.Dial`, `botOk` for `bertybot.New`. -/
def keyLoadAndDial (o : RootOpts) (t : List Effect) (readOk : String → Bool)
    (dialOk botOk : Bool) : List Effect × RunOutcome :=
  if o.privatekeyPath = "" ∨ o.publickeyPath = "" then (t, .errHelpMissingKeys)
  else if !readOk o.privatekeyPath then
    (t ++ [.readFile o.privatekeyPath], .readKeyFailed o.privatekeyPath)
  else if !readOk o.publickeyPath then
    (t ++ [.readFile o.privatekeyPath, .readFile o.publickeyPath],
     .readKeyFailed o.publickeyPath)
  else
    let t2 := t ++ [.readFile o.privatekeyPath, .readFile o.publickeyPath, .grpcDial]
    if !dialOk then (t2, .dialFailed)
    else if !botOk then (t2 ++ [.newBot], .botInitFailed)
    else (t2 ++ [.newBot, .startBot], .botStarted)

/-- The bot run group of `main.go` lines 136-229: sqlite init, then — when
the generate-keys flag is set — `GenKeys("private.key", "public.key")`
followed by overwriting both key-path options with those two file names,
then the key-path check, key loading, dial and bot start. -/
def botRunGroup (o : RootOpts) (dbOk genOk : Bool) (readOk : String → Bool)
    (dialOk botOk : Bool) : List Effect × RunOutcome :=
  if !dbOk then ([.newSqliteDB], .dbInitFailed)
  else if o.generateKeys then
    let t1 := [Effect.newSqliteDB, Effect.genKeys "private.key" "public.key"]
    if !genOk then (t1, .genKeysFailed)
    else
      keyLoadAndDial
        { o with privatekeyPath := "private.key", publickeyPath := "public.key" }
        t1 readOk dialOk botOk
  else keyLoadAndDial o [Effect.newSqliteDB] readOk dialOk botOk

/-- The key paths in effect after the optional key generation step of
`main.go` lines 144-151. -/
def effectiveKeyPaths (o : RootOpts) : String × String :=
  if o.generateKeys then ("private.key", "public.key")
  else (o.privatekeyPath, o.publickeyPath)

/- ===================== Proof-support definitions ===================== -/

/-- Every channel row matching the key carries the given display name. -/
def allNamesEq (w : Nat) (r n : String) (cs : List Channel) : Prop :=
  ∀ c ∈ cs, chanKey w r c = true → c.name = n

/- ===================== Channel-row lemmas ===================== -/

theorem chanKey_name_update (w : Nat) (r n : String) (c : Channel) :
    chanKey w r { c with name := n } = chanKey w r c := rfl

theorem chanKey_mk_self (w : Nat) (r n : String) :
    chanKey w r ⟨w, r, n⟩ = true := by
  simp [chanKey]

theorem chanTracked_setChannelName (w1 : Nat) (r1 : String) (w : Nat) (r n : String)
    (cs : List Channel) :
    chanTracked (setChannelName w r n cs) w1 r1 = chanTracked cs w1 r1 := by
  induction cs with
  | nil => rfl
  | cons c cs ih =>
      simp only [chanTracked, setChannelName, List.map_cons, List.any_cons] at ih ⊢
      rw [ih]
      congr 1
      split
      · rfl
      · rfl

theorem chanTracked_append (cs ds : List Channel) (w : Nat) (r : String) :
    chanTracked (cs ++ ds) w r = (chanTracked cs w r || chanTracked ds w r) :=
  List.any_append

theorem upsertChans_fst_of_tracked (cs : List Channel) (w : Nat) (r n : String)
    (ht : chanTracked cs w r = true) :
    (upsertChans cs w r n).1 = setChannelName w r n cs := by
  cases h : cs.find? (chanKey w r) with
  | some c => simp [upsertChans, h]
  | none =>
      exfalso
      obtain ⟨c, hc, hk⟩ := List.any_eq_true.mp ht
      exact (List.find?_eq_none.mp h c hc) hk

theorem upsertChans_of_untracked (cs : List Channel) (w : Nat) (r n : String)
    (ht : chanTracked cs w r = false) :
    upsertChans cs w r n = (cs ++ [⟨w, r, n⟩], .created) := by
  cases h : cs.find? (chanKey w r) with
  | some c =>
      exfalso
      have hk : chanKey w r c = true := List.find?_some h
      have hc : c ∈ cs := List.mem_of_find?_eq_some h
      have : chanTracked cs w r = true := List.any_eq_true.mpr ⟨c, hc, hk⟩
      rw [this] at ht
      exact Bool.noConfusion ht
  | none => simp [upsertChans, h]

theorem upsertChans_snd_ne_created_of_tracked (cs : List Channel) (w : Nat) (r n : String)
    (ht : chanTracked cs w r = true) :
    (upsertChans cs w r n).2 ≠ .created := by
  cases h : cs.find? (chanKey w r) with
  | some c =>
      simp only [upsertChans, h]
      split <;> simp
  | none =>
      exfalso
      obtain ⟨c, hc, hk⟩ := List.any_eq_true.mp ht
      exact (List.find?_eq_none.mp h c hc) hk

theorem chanTracked_upsertChans_mono (cs : List Channel) (w : Nat) (r n : String)
    (w1 : Nat) (r1 : String) (h : chanTracked cs w1 r1 = true) :
    chanTracked (upsertChans cs w r n).1 w1 r1 = true := by
  by_cases ht : chanTracked cs w r = true
  · rw [upsertChans_fst_of_tracked cs w r n ht, chanTracked_setChannelName]
    exact h
  · rw [upsertChans_of_untracked cs w r n (Bool.not_eq_true _ ▸ ht)]
    rw [chanTracked_append, h]
    rfl

theorem chanTracked_upsertChans_self (cs : List Channel) (w : Nat) (r n : String) :
    chanTracked (upsertChans cs w r n).1 w r = true := by
  by_cases ht : chanTracked cs w r = true
  · rw [upsertChans_fst_of_tracked cs w r n ht, chanTracked_setChannelName]
    exact ht
  · rw [upsertChans_of_untracked cs w r n (Bool.not_eq_true _ ▸ ht)]
    rw [chanTracked_append]
    simp [chanTracked, chanKey_mk_self]

theorem setChannelName_id_of_allNamesEq (w : Nat) (r n : String) (cs : List Channel)
    (h : allNamesEq w r n cs) : setChannelName w r n cs = cs := by
  induction cs with
  | nil => rfl
  | cons c cs ih =>
      simp only [setChannelName, List.map_cons] at ih ⊢
      have tail : allNamesEq w r n cs := fun c1 hc1 => h c1 (List.mem_cons_of_mem c hc1)
      rw [ih tail]
      by_cases hk : chanKey w r c = true
      · have hn : c.name = n := h c (List.mem_cons_self c cs) hk
        cases c with
        | mk cw cr cn =>
            simp at hn
            subst hn
            simp [hk]
      · simp [hk]

theorem allNamesEq_setChannelName (w : Nat) (r n : String) (cs : List Channel) :
    allNamesEq w r n (setChannelName w r n cs) := by
  intro c1 hc1 hk1
  obtain ⟨c, hc, hmap⟩ := List.mem_map.mp hc1
  by_cases hk : chanKey w r c = true
  · rw [if_pos hk] at hmap
    rw [← hmap]
  · rw [if_neg hk] at hmap
    rw [← hmap] at hk1
    exact absurd hk1 hk

theorem allNamesEq_upsertChans_self (cs : List Channel) (w : Nat) (r n : String) :
    allNamesEq w r n (upsertChans cs w r n).1 := by
  by_cases ht : chanTracked cs w r = true
  · rw [upsertChans_fst_of_tracked cs w r n ht]
    exact allNamesEq_setChannelName w r n cs
  · rw [upsertChans_of_untracked cs w r n (Bool.not_eq_true _ ▸ ht)]
    intro c1 hc1 hk1
    rcases List.mem_append.mp hc1 with hin | hin
    · exfalso
      have : chanTracked cs w r = true := List.any_eq_true.mpr ⟨c1, hin, hk1⟩
      exact ht this
    · rw [List.mem_singleton.mp hin]

theorem allNamesEq_upsertChans_other (cs : List Channel) (w : Nat) (r n r1 n1 : String)
    (hne : (r1 == r) = false) (h : allNamesEq w r n cs) :
    allNamesEq w r n (upsertChans cs w r1 n1).1 := by
  by_cases ht : chanTracked cs w r1 = true
  · rw [upsertChans_fst_of_tracked cs w r1 n1 ht]
    intro c1 hc1 hk1
    obtain ⟨c, hc, hmap⟩ := List.mem_map.mp hc1
    by_cases hk : chanKey w r1 c = true
    · exfalso
      rw [if_pos hk] at hmap
      rw [← hmap] at hk1
      rw [chanKey_name_update] at hk1
      simp only [chanKey, Bool.and_eq_true, beq_iff_eq] at hk hk1
      rw [hk1.2] at hk
      rw [hk.2] at hne
      simp at hne
    · rw [if_neg hk] at hmap
      rw [← hmap] at hk1 ⊢
      exact h c hc hk1
  · rw [upsertChans_of_untracked cs w r1 n1 (Bool.not_eq_true _ ▸ ht)]
    intro c1 hc1 hk1
    rcases List.mem_append.mp hc1 with hin | hin
    · exact h c1 hin hk1
    · exfalso
      rw [List.mem_singleton.mp hin] at hk1
      simp only [chanKey, Bool.and_eq_true, beq_iff_eq] at hk1
      rw [hk1.2] at hne
      simp at hne

theorem upsertChans_eq_of_allNamesEq (cs : List Channel) (w : Nat) (r n : String)
    (ht : chanTracked cs w r = true) (h : allNamesEq w r n cs) :
    upsertChans cs w r n = (cs, .unchanged) := by
  cases hf : cs.find? (chanKey w r) with
  | some c =>
      have hk : chanKey w r c = true := List.find?_some hf
      have hc : c ∈ cs := List.mem_of_find?_eq_some hf
      have hn : c.name = n := h c hc hk
      simp only [upsertChans, hf]
      rw [setChannelName_id_of_allNamesEq w r n cs h]
      simp [hn]
  | none =>
      exfalso
      obtain ⟨c, hc, hk⟩ := List.any_eq_true.mp ht
      exact (List.find?_eq_none.mp hf c hc) hk

theorem setChannelName_absorb (w : Nat) (r n n1 : String) (cs : List Channel) :
    setChannelName w r n1 (setChannelName w r n cs) = setChannelName w r n1 cs := by
  induction cs with
  | nil => rfl
  | cons c cs ih =>
      simp only [setChannelName, List.map_cons] at ih ⊢
      rw [ih]
      by_cases hk : chanKey w r c = true
      · simp [hk, chanKey_name_update]
      · simp [hk]

theorem setChannelName_comm (w : Nat) (r n r1 n1 : String) (cs : List Channel)
    (hne : (r1 == r) = false) :
    setChannelName w r n (setChannelName w r1 n1 cs) =
      setChannelName w r1 n1 (setChannelName w r n cs) := by
  induction cs with
  | nil => rfl
  | cons c cs ih =>
      simp only [setChannelName, List.map_cons] at ih ⊢
      rw [ih]
      by_cases hk1 : chanKey w r1 c = true
      · by_cases hk : chanKey w r c = true
        · exfalso
          simp only [chanKey, Bool.and_eq_true, beq_iff_eq] at hk hk1
          rw [hk1.2] at hk
          rw [hk.2] at hne
          simp at hne
        · have hk2 : chanKey w r { c with name := n1 } = false := by
            rw [chanKey_name_update]
            exact Bool.not_eq_true _ ▸ hk
          simp [hk, hk1, hk2, chanKey_name_update]
      · by_cases hk : chanKey w r c = true
        · have hk2 : chanKey w r1 { c with name := n } = false := by
            rw [chanKey_name_update]
            exact Bool.not_eq_true _ ▸ hk1
          simp [hk, hk1, hk2, chanKey_name_update]
        · simp [hk, hk1]

theorem upsertChans_comm (cs : List Channel) (w : Nat) (r n r1 n1 : String)
    (hne : (r1 == r) = false) (ht : chanTracked cs w r = true) :
    (upsertChans (upsertChans cs w r n).1 w r1 n1).1 =
      (upsertChans (upsertChans cs w r1 n1).1 w r n).1 := by
  by_cases h1 : chanTracked cs w r1 = true
  · rw [upsertChans_fst_of_tracked cs w r n ht]
    rw [upsertChans_fst_of_tracked _ w r1 n1 (by rw [chanTracked_setChannelName]; exact h1)]
    rw [upsertChans_fst_of_tracked cs w r1 n1 h1]
    rw [upsertChans_fst_of_tracked _ w r n (by rw [chanTracked_setChannelName]; exact ht)]
    exact (setChannelName_comm w r n r1 n1 cs hne).symm
  · have h1f : chanTracked cs w r1 = false := Bool.not_eq_true _ ▸ h1
    rw [upsertChans_fst_of_tracked cs w r n ht]
    rw [upsertChans_of_untracked _ w r1 n1 (by rw [chanTracked_setChannelName]; exact h1f)]
    rw [upsertChans_of_untracked cs w r1 n1 h1f]
    rw [upsertChans_fst_of_tracked _ w r n (by
      rw [chanTracked_append, ht]
      rfl)]
    show setChannelName w r n cs ++ [⟨w, r1, n1⟩] = setChannelName w r n (cs ++ [⟨w, r1, n1⟩])
    have hsplit : setChannelName w r n (cs ++ [⟨w, r1, n1⟩]) =
        setChannelName w r n cs ++ [⟨w, r1, n1⟩] := by
      unfold setChannelName
      rw [List.map_append]
      congr 1
      simp only [List.map_cons, List.map_nil, chanKey]
      rw [hne]
      simp
    exact hsplit.symm

/- ===================== Sync-loop lemmas ===================== -/

theorem syncState_nil (w : Nat) (cs : List Channel) : syncState w cs [] = cs := rfl

theorem syncState_cons (w : Nat) (cs : List Channel) (rc : RemoteChannel)
    (L : List RemoteChannel) :
    syncState w cs (rc :: L) = syncState w (upsertChans cs w rc.id rc.name).1 L := rfl

theorem chanTracked_syncState_mono (w : Nat) (L : List RemoteChannel) :
    ∀ (cs : List Channel) (w1 : Nat) (r1 : String),
      chanTracked cs w1 r1 = true → chanTracked (syncState w cs L) w1 r1 = true := by
  induction L with
  | nil => intro cs w1 r1 h; exact h
  | cons rc L ih =>
      intro cs w1 r1 h
      rw [syncState_cons]
      exact ih _ w1 r1 (chanTracked_upsertChans_mono cs w rc.id rc.name w1 r1 h)

theorem chanTracked_syncState_of_mem (w : Nat) (L : List RemoteChannel) :
    ∀ (cs : List Channel) (rc : RemoteChannel), rc ∈ L →
      chanTracked (syncState w cs L) w rc.id = true := by
  induction L with
  | nil => intro cs rc h; cases h
  | cons rc0 L ih =>
      intro cs rc h
      rw [syncState_cons]
      rcases List.mem_cons.mp h with he | hm
      · subst he
        exact chanTracked_syncState_mono w L _ w rc.id
          (chanTracked_upsertChans_self cs w rc.id rc.name)
      · exact ih _ rc hm

theorem addKind_created_of_ne (k : UpsertKind) (s : RefreshSummary)
    (h : k ≠ .created) : (addKind k s).created = s.created := by
  cases k with
  | created => exact absurd rfl h
  | updated => rfl
  | unchanged => rfl

theorem syncChans_created_zero (w : Nat) (L : List RemoteChannel) :
    ∀ cs : List Channel, (∀ rc ∈ L, chanTracked cs w rc.id = true) →
      (syncChans w cs L).2.created = 0 := by
  induction L with
  | nil => intro cs _; rfl
  | cons rc L ih =>
      intro cs h
      show (addKind (upsertChans cs w rc.id rc.name).2
        (syncChans w (upsertChans cs w rc.id rc.name).1 L).2).created = 0
      rw [addKind_created_of_ne _ _
        (upsertChans_snd_ne_created_of_tracked cs w rc.id rc.name
          (h rc (List.mem_cons_self rc L)))]
      exact ih _ (fun rc1 h1 =>
        chanTracked_upsertChans_mono cs w rc.id rc.name w rc1.id
          (h rc1 (List.mem_cons_of_mem rc h1)))

theorem allNamesEq_syncState_of_not_mem (w : Nat) (r n : String) (L : List RemoteChannel) :
    ∀ cs : List Channel, (∀ rc ∈ L, (rc.id == r) = false) → allNamesEq w r n cs →
      allNamesEq w r n (syncState w cs L) := by
  induction L with
  | nil => intro cs _ h; exact h
  | cons rc L ih =>
      intro cs hk h
      rw [syncState_cons]
      exact ih _ (fun rc1 h1 => hk rc1 (List.mem_cons_of_mem rc h1))
        (allNamesEq_upsertChans_other cs w r n rc.id rc.name
          (hk rc (List.mem_cons_self rc L)) h)

theorem syncState_absorb (w : Nat) (r : String) (L : List RemoteChannel) :
    ∀ (cs : List Channel) (n : String), chanTracked cs w r = true →
      (∃ rc ∈ L, (rc.id == r) = true) →
      syncState w (upsertChans cs w r n).1 L = syncState w cs L := by
  induction L with
  | nil => intro cs n _ hex; exact absurd hex (by simp)
  | cons rc1 L ih =>
      intro cs n ht hex
      rw [syncState_cons, syncState_cons]
      by_cases h1 : (rc1.id == r) = true
      · have he : rc1.id = r := beq_iff_eq.mp h1
        rw [he]
        rw [upsertChans_fst_of_tracked cs w r n ht]
        rw [upsertChans_fst_of_tracked _ w r rc1.name
          (by rw [chanTracked_setChannelName]; exact ht)]
        rw [upsertChans_fst_of_tracked cs w r rc1.name ht]
        rw [setChannelName_absorb]
      · have h1f : (rc1.id == r) = false := Bool.not_eq_true _ ▸ h1
        have hex1 : ∃ rc ∈ L, (rc.id == r) = true := by
          rcases hex with ⟨rc2, hm, hk⟩
          rcases List.mem_cons.mp hm with he | hm1
          · subst he; exact absurd hk (by rw [h1f]; exact Bool.noConfusion)
          · exact ⟨rc2, hm1, hk⟩
        rw [upsertChans_comm cs w r n rc1.id rc1.name h1f ht]
        exact ih _ n (chanTracked_upsertChans_mono cs w rc1.id rc1.name w r ht) hex1

theorem syncState_replay (w : Nat) (L : List RemoteChannel) :
    ∀ cs : List Channel, syncState w (syncState w cs L) L = syncState w cs L := by
  induction L with
  | nil => intro cs; rfl
  | cons rc L ih =>
      intro cs
      show syncState w
        (upsertChans (syncState w (upsertChans cs w rc.id rc.name).1 L) w rc.id rc.name).1 L =
        syncState w (upsertChans cs w rc.id rc.name).1 L
      have htr : chanTracked (syncState w (upsertChans cs w rc.id rc.name).1 L) w rc.id = true :=
        chanTracked_syncState_mono w L _ w rc.id
          (chanTracked_upsertChans_self cs w rc.id rc.name)
      by_cases hex : ∃ rc2 ∈ L, (rc2.id == rc.id) = true
      · rw [syncState_absorb w rc.id L _ rc.name htr hex]
        exact ih _
      · have hall : ∀ rc2 ∈ L, (rc2.id == rc.id) = false := by
          intro rc2 hm
          by_cases h2 : (rc2.id == rc.id) = true
          · exact absurd ⟨rc2, hm, h2⟩ hex
          · exact Bool.not_eq_true _ ▸ h2
        have hnames : allNamesEq w rc.id rc.name
            (syncState w (upsertChans cs w rc.id rc.name).1 L) :=
          allNamesEq_syncState_of_not_mem w rc.id rc.name L _ hall
            (allNamesEq_upsertChans_self cs w rc.id rc.name)
        rw [upsertChans_eq_of_allNamesEq _ w rc.id rc.name htr hnames]
        exact ih _

/- ===================== Refresh characterization ===================== -/

theorem Refresh_of_missing (st : Store) (w : Nat)
    (fetch : String → Except DirError (List RemoteChannel))
    (hf : findWorkspace st w = none) :
    Refresh st w fetch = (st, .workspaceMissing) := by
  simp [Refresh, hf]

theorem Refresh_of_nolink (st : Store) (w : Nat)
    (fetch : String → Except DirError (List RemoteChannel)) (ws : Workspace)
    (hf : findWorkspace st w = some ws)
    (hl : getAccountLink st ws.conversationRef = none) :
    Refresh st w fetch = (st, .noLinkedAccount) := by
  simp [Refresh, hf, hl]

theorem Refresh_of_fetchError (st : Store) (w : Nat)
    (fetch : String → Except DirError (List RemoteChannel)) (ws : Workspace)
    (link : AccountLink) (e : DirError)
    (hf : findWorkspace st w = some ws)
    (hl : getAccountLink st ws.conversationRef = some link)
    (hr : fetch link.externalAccountID = .error e) :
    Refresh st w fetch = (st, .refreshFailed e) := by
  simp [Refresh, hf, hl, hr]

theorem Refresh_of_fetchOk (st : Store) (w : Nat)
    (fetch : String → Except DirError (List RemoteChannel)) (ws : Workspace)
    (link : AccountLink) (remotes : List RemoteChannel)
    (hf : findWorkspace st w = some ws)
    (hl : getAccountLink st ws.conversationRef = some link)
    (hr : fetch link.externalAccountID = .ok remotes) :
    Refresh st w fetch =
      ({ st with channels := syncState w st.channels remotes },
       .refreshed (syncChans w st.channels remotes).2) := by
  simp [Refresh, hf, hl, hr, syncState]

theorem Refresh_workspaces (st : Store) (w : Nat)
    (fetch : String → Except DirError (List RemoteChannel)) :
    (Refresh st w fetch).1.workspaces = st.workspaces := by
  cases hf : findWorkspace st w with
  | none => rw [Refresh_of_missing st w fetch hf]
  | some ws =>
      cases hl : getAccountLink st ws.conversationRef with
      | none => rw [Refresh_of_nolink st w fetch ws hf hl]
      | some link =>
          cases hr : fetch link.externalAccountID with
          | error e => rw [Refresh_of_fetchError st w fetch ws link e hf hl hr]
          | ok remotes => rw [Refresh_of_fetchOk st w fetch ws link remotes hf hl hr]

theorem Refresh_links (st : Store) (w : Nat)
    (fetch : String → Except DirError (List RemoteChannel)) :
    (Refresh st w fetch).1.links = st.links := by
  cases hf : findWorkspace st w with
  | none => rw [Refresh_of_missing st w fetch hf]
  | some ws =>
      cases hl : getAccountLink st ws.conversationRef with
      | none => rw [Refresh_of_nolink st w fetch ws hf hl]
      | some link =>
          cases hr : fetch link.externalAccountID with
          | error e => rw [Refresh_of_fetchError st w fetch ws link e hf hl hr]
          | ok remotes => rw [Refresh_of_fetchOk st w fetch ws link remotes hf hl hr]

theorem Refresh_tracked_mono (st : Store) (wsID : Nat)
    (fetch : String → Except DirError (List RemoteChannel)) (w : Nat) (r : String)
    (h : trackedChannel st w r = true) :
    trackedChannel (Refresh st wsID fetch).1 w r = true := by
  cases hf : findWorkspace st wsID with
  | none => rw [Refresh_of_missing st wsID fetch hf]; exact h
  | some ws =>
      cases hl : getAccountLink st ws.conversationRef with
      | none => rw [Refresh_of_nolink st wsID fetch ws hf hl]; exact h
      | some link =>
          cases hr : fetch link.externalAccountID with
          | error e =>
              rw [Refresh_of_fetchError st wsID fetch ws link e hf hl hr]
              exact h
          | ok remotes =>
              rw [Refresh_of_fetchOk st wsID fetch ws link remotes hf hl hr]
              exact chanTracked_syncState_mono wsID remotes st.channels w r h

/-- C1: for every possible Directory Client response (the fetch function is
universally quantified, so empty and error responses are included),
`Refresh` never removes a previously tracked channel: every channel key
recorded before the call is still recorded after the call. -/
theorem refresh_never_removes_tracked_channel (st : Store) (wsID : Nat)
    (fetch : String → Except DirError (List RemoteChannel)) (w : Nat) (r : String)
    (h : trackedChannel st w r = true) :
    trackedChannel (Refresh st wsID fetch).1 w r = true :=
  Refresh_tracked_mono st wsID fetch w r h

theorem refresh_never_removes_tracked_channel_witness :
    trackedChannel
      (Refresh ⟨[⟨1, "conv1", "team-a"⟩], [⟨1, "rc-1", "general"⟩],
                [⟨"conv1", "acct-42"⟩], 2⟩ 1
        (fun _ => Except.ok [])).1 1 "rc-1" = true :=
  refresh_never_removes_tracked_channel
    ⟨[⟨1, "conv1", "team-a"⟩], [⟨1, "rc-1", "general"⟩], [⟨"conv1", "acct-42"⟩], 2⟩
    1 (fun _ => Except.ok []) 1 "rc-1" (by decide)

/-- C2: `Refresh` is idempotent — for every store and workspace, refreshing
twice against an unchanged Directory Client response leaves the channel
state of the second call identical to that of the first, and the second
call's summary reports zero created channels. -/
theorem refresh_idempotent (st : Store) (w : Nat)
    (fetch : String → Except DirError (List RemoteChannel)) :
    (Refresh (Refresh st w fetch).1 w fetch).1 = (Refresh st w fetch).1 ∧
    createdCount (Refresh (Refresh st w fetch).1 w fetch).2 = 0 := by
  cases hf : findWorkspace st w with
  | none =>
      rw [Refresh_of_missing st w fetch hf]
      rw [Refresh_of_missing st w fetch hf]
      exact ⟨rfl, rfl⟩
  | some ws =>
      cases hl : getAccountLink st ws.conversationRef with
      | none =>
          rw [Refresh_of_nolink st w fetch ws hf hl]
          rw [Refresh_of_nolink st w fetch ws hf hl]
          exact ⟨rfl, rfl⟩
      | some link =>
          cases hr : fetch link.externalAccountID with
          | error e =>
              rw [Refresh_of_fetchError st w fetch ws link e hf hl hr]
              rw [Refresh_of_fetchError st w fetch ws link e hf hl hr]
              exact ⟨rfl, rfl⟩
          | ok remotes =>
              rw [Refresh_of_fetchOk st w fetch ws link remotes hf hl hr]
              have hf2 : findWorkspace
                  { st with channels := syncState w st.channels remotes } w = some ws := hf
              have hl2 : getAccountLink
                  { st with channels := syncState w st.channels remotes }
                  ws.conversationRef = some link := hl
              rw [Refresh_of_fetchOk _ w fetch ws link remotes hf2 hl2 hr]
              constructor
              · show ({ st with
                    channels := syncState w (syncState w st.channels remotes) remotes } : Store) =
                  { st with channels := syncState w st.channels remotes }
                rw [syncState_replay w remotes st.channels]
              · show (syncChans w (syncState w st.channels remotes) remotes).2.created = 0
                exact syncChans_created_zero w remotes _
                  (fun rc hm => chanTracked_syncState_of_mem w remotes st.channels rc hm)

/- ===================== RefreshAll lemmas ===================== -/

theorem getAccountLink_eq_of_links (st1 st : Store) (m : String)
    (h : st1.links = st.links) : getAccountLink st1 m = getAccountLink st m := by
  unfold getAccountLink
  rw [h]

theorem refreshSeq_results_ids (fetch : Nat → String → Except DirError (List RemoteChannel)) :
    ∀ (wss : List Workspace) (st : Store),
      ((refreshSeq fetch st wss).2).map Prod.fst = wss.map Workspace.id := by
  intro wss
  induction wss with
  | nil => intro st; rfl
  | cons ws0 wss ih =>
      intro st
      show List.map Prod.fst
          ((ws0.id, (Refresh st ws0.id (fetch ws0.id)).2) ::
            (refreshSeq fetch (Refresh st ws0.id (fetch ws0.id)).1 wss).2) =
        List.map Workspace.id (ws0 :: wss)
      simp only [List.map_cons]
      rw [ih _]

theorem refreshSeq_tracked_mono (fetch : Nat → String → Except DirError (List RemoteChannel)) :
    ∀ (wss : List Workspace) (st : Store) (w : Nat) (r : String),
      trackedChannel st w r = true →
      trackedChannel (refreshSeq fetch st wss).1 w r = true := by
  intro wss
  induction wss with
  | nil => intro st w r h; exact h
  | cons ws0 wss ih =>
      intro st w r h
      exact ih _ w r (Refresh_tracked_mono st ws0.id (fetch ws0.id) w r h)

theorem find?_workspace_id_of_nodup (ws : Workspace) :
    ∀ l : List Workspace, (l.map Workspace.id).Nodup → ws ∈ l →
      l.find? (fun x => x.id == ws.id) = some ws := by
  intro l
  induction l with
  | nil => intro _ h; cases h
  | cons y l ih =>
      intro hN hmem
      rw [List.map_cons, List.nodup_cons] at hN
      rcases List.mem_cons.mp hmem with he | hm
      · subst he
        exact List.find?_cons_of_pos _ (by simp)
      · have hne : (y.id == ws.id) = false := by
          by_cases hb : (y.id == ws.id) = true
          · exfalso
            have : ws.id ∈ l.map Workspace.id := List.mem_map.mpr ⟨ws, hm, rfl⟩
            rw [← beq_iff_eq.mp hb] at this
            exact hN.1 this
          · exact Bool.not_eq_true _ ▸ hb
        rw [List.find?_cons_of_neg _ (by rw [hne]; exact Bool.noConfusion)]
        exact ih hN.2 hm

theorem findWorkspace_of_nodup (st : Store) (ws : Workspace)
    (hN : (st.workspaces.map Workspace.id).Nodup) (hmem : ws ∈ st.workspaces) :
    findWorkspace st ws.id = some ws :=
  find?_workspace_id_of_nodup ws st.workspaces hN hmem

theorem refreshSeq_tracked_of_fetchOk
    (fetch : Nat → String → Except DirError (List RemoteChannel))
    (ws : Workspace) (l : AccountLink) (L : List RemoteChannel) (rc : RemoteChannel) :
    ∀ (wss : List Workspace) (st : Store),
      (∀ x ∈ wss, x ∈ st.workspaces) →
      (st.workspaces.map Workspace.id).Nodup →
      ws ∈ wss →
      getAccountLink st ws.conversationRef = some l →
      fetch ws.id l.externalAccountID = .ok L →
      rc ∈ L →
      trackedChannel (refreshSeq fetch st wss).1 ws.id rc.id = true := by
  intro wss
  induction wss with
  | nil => intro st _ _ h; cases h
  | cons ws0 wss ih =>
      intro st hsub hN hmem hl hL hrc
      show trackedChannel
        (refreshSeq fetch (Refresh st ws0.id (fetch ws0.id)).1 wss).1 ws.id rc.id = true
      rcases List.mem_cons.mp hmem with he | hm
      · subst he
        have hf : findWorkspace st ws.id = some ws :=
          findWorkspace_of_nodup st ws hN (hsub ws (List.mem_cons_self ws wss))
        rw [Refresh_of_fetchOk st ws.id (fetch ws.id) ws l L hf hl hL]
        apply refreshSeq_tracked_mono fetch wss
        exact chanTracked_syncState_of_mem ws.id L st.channels rc hrc
      · apply ih (Refresh st ws0.id (fetch ws0.id)).1
        · intro x hx
          rw [Refresh_workspaces]
          exact hsub x (List.mem_cons_of_mem ws0 hx)
        · rw [Refresh_workspaces]
          exact hN
        · exact hm
        · rw [getAccountLink_eq_of_links _ st _ (Refresh_links st ws0.id (fetch ws0.id))]
          exact hl
        · exact hL
        · exact hrc

/-- C5: `RefreshAll` has collect-and-report semantics, not fail-fast — for
every conversation and every Directory Client behaviour (each workspace's
fetch may independently fail), the aggregate reports one per-workspace
result for every workspace of the conversation, and every workspace whose
own fetch succeeds still gets each returned channel tracked in the final
state, regardless of failures of other workspaces' refreshes. -/
theorem refreshAll_not_failfast (st : Store) (conv : String)
    (fetch : Nat → String → Except DirError (List RemoteChannel))
    (hN : (st.workspaces.map Workspace.id).Nodup)
    (ws : Workspace) (hws : ws ∈ listWorkspaces st conv)
    (l : AccountLink) (hl : getAccountLink st ws.conversationRef = some l)
    (L : List RemoteChannel) (hL : fetch ws.id l.externalAccountID = .ok L)
    (rc : RemoteChannel) (hrc : rc ∈ L) :
    ((RefreshAll st conv fetch).2.map Prod.fst =
      (listWorkspaces st conv).map Workspace.id) ∧
    trackedChannel (RefreshAll st conv fetch).1 ws.id rc.id = true := by
  constructor
  · exact refreshSeq_results_ids fetch (listWorkspaces st conv) st
  · exact refreshSeq_tracked_of_fetchOk fetch ws l L rc (listWorkspaces st conv) st
      (fun x hx => List.mem_of_mem_filter hx) hN hws hl hL hrc

theorem refreshAll_not_failfast_witness :
    ((RefreshAll ⟨[⟨1, "conv1", "team-a"⟩, ⟨2, "conv1", "team-b"⟩], [],
        [⟨"conv1", "acct-42"⟩], 3⟩ "conv1"
        (fun w _ => if w == 1 then Except.error DirError.networkError
          else Except.ok [⟨"rc-9", "random"⟩])).2.map Prod.fst =
      (listWorkspaces ⟨[⟨1, "conv1", "team-a"⟩, ⟨2, "conv1", "team-b"⟩], [],
        [⟨"conv1", "acct-42"⟩], 3⟩ "conv1").map Workspace.id) ∧
    trackedChannel
      (RefreshAll ⟨[⟨1, "conv1", "team-a"⟩, ⟨2, "conv1", "team-b"⟩], [],
        [⟨"conv1", "acct-42"⟩], 3⟩ "conv1"
        (fun w _ => if w == 1 then Except.error DirError.networkError
          else Except.ok [⟨"rc-9", "random"⟩])).1 2 "rc-9" = true :=
  refreshAll_not_failfast
    ⟨[⟨1, "conv1", "team-a"⟩, ⟨2, "conv1", "team-b"⟩], [], [⟨"conv1", "acct-42"⟩], 3⟩
    "conv1"
    (fun w _ => if w == 1 then Except.error DirError.networkError
      else Except.ok [⟨"rc-9", "random"⟩])
    (by decide) ⟨2, "conv1", "team-b"⟩ (by decide) ⟨"conv1", "acct-42"⟩ (by decide)
    [⟨"rc-9", "random"⟩] rfl ⟨"rc-9", "random"⟩ (by decide)

/- ===================== AddWorkspace / AddChannel lemmas ===================== -/

theorem workspaceNameTaken_after_add (st : Store) (conv n : String) (hn : n ≠ "") :
    workspaceNameTaken (AddWorkspace st conv n).1 conv n = true := by
  by_cases ht : workspaceNameTaken st conv n = true
  · have h1 : AddWorkspace st conv n = (st, .alreadyExists) := by
      simp [AddWorkspace, createWorkspace, hn, ht]
    rw [h1]
    exact ht
  · have htf : workspaceNameTaken st conv n = false := Bool.not_eq_true _ ▸ ht
    have h1 : AddWorkspace st conv n =
        ({ st with workspaces := st.workspaces ++ [⟨st.nextWorkspaceID, conv, n⟩],
                   nextWorkspaceID := st.nextWorkspaceID + 1 },
         .createdWs ⟨st.nextWorkspaceID, conv, n⟩) := by
      simp [AddWorkspace, createWorkspace, hn, htf]
    rw [h1]
    show (st.workspaces ++ [(⟨st.nextWorkspaceID, conv, n⟩ : Workspace)]).any
      (fun ws => ws.conversationRef == conv && ws.name == n) = true
    rw [List.any_append]
    simp

/-- C3 (counterexample): the claim quantifies over every (conversation, name)
pair, but for the empty name the second identical `AddWorkspace` call is
rejected by the non-empty-name validation (which the spec places before any
Store call), so it does not surface the "already exists" ConflictError. -/
theorem addWorkspace_twice_empty_name_counterexample :
    (AddWorkspace (AddWorkspace emptyStore "conv1" "").1 "conv1" "").2 ≠
      AddWorkspaceResult.alreadyExists := by
  decide

/-- C3 (amended): for every (conversation, name) pair with a non-empty name,
a second `AddWorkspace` with the same pair yields the user-facing
"already exists" result mapped from the ConflictError, and the number of
stored workspaces for that conversation does not increase on the second
call. -/
theorem addWorkspace_twice_conflict (st : Store) (conv n : String) (hn : n ≠ "") :
    (AddWorkspace (AddWorkspace st conv n).1 conv n).2 =
      AddWorkspaceResult.alreadyExists ∧
    countWorkspaces (AddWorkspace (AddWorkspace st conv n).1 conv n).1 conv =
      countWorkspaces (AddWorkspace st conv n).1 conv := by
  have hta : workspaceNameTaken (AddWorkspace st conv n).1 conv n = true :=
    workspaceNameTaken_after_add st conv n hn
  generalize hst1 : (AddWorkspace st conv n).1 = st1 at hta ⊢
  have h2 : AddWorkspace st1 conv n = (st1, .alreadyExists) := by
    simp [AddWorkspace, createWorkspace, hn, hta]
  rw [h2]
  exact ⟨rfl, rfl⟩

theorem addWorkspace_twice_conflict_witness :
    ("team-a" : String) ≠ "" ∧
    ((AddWorkspace (AddWorkspace emptyStore "conv1" "team-a").1 "conv1" "team-a").2 =
      AddWorkspaceResult.alreadyExists ∧
    countWorkspaces
        (AddWorkspace (AddWorkspace emptyStore "conv1" "team-a").1 "conv1" "team-a").1
        "conv1" =
      countWorkspaces (AddWorkspace emptyStore "conv1" "team-a").1 "conv1") :=
  ⟨by decide, addWorkspace_twice_conflict emptyStore "conv1" "team-a" (by decide)⟩

/-- C4: for every workspace identifier that is not stored and every remote
channel identifier, `AddChannel` yields the workspace-NotFound user error
and leaves the store unchanged (no channel row is created). -/
theorem addChannel_nonexistent_workspace (st : Store) (w : Nat) (r n : String)
    (h : workspaceExists st w = false) :
    AddChannel st w r n = (st, AddChannelResult.workspaceNotFound) := by
  simp [AddChannel, h]

theorem addChannel_nonexistent_workspace_witness :
    workspaceExists emptyStore 7 = false ∧
    AddChannel emptyStore 7 "rc-1" "general" =
      (emptyStore, AddChannelResult.workspaceNotFound) :=
  ⟨by decide, addChannel_nonexistent_workspace emptyStore 7 "rc-1" "general" (by decide)⟩

/- ===================== LinkAccount lemmas ===================== -/

theorem find?_append_left_none {α : Type} (p : α → Bool) :
    ∀ (l1 l2 : List α), (∀ x ∈ l1, p x = false) →
      (l1 ++ l2).find? p = l2.find? p := by
  intro l1
  induction l1 with
  | nil => intro l2 _; rfl
  | cons a l1 ih =>
      intro l2 h
      rw [List.cons_append]
      rw [List.find?_cons_of_neg _
        (by rw [h a (List.mem_cons_self a l1)]; exact Bool.noConfusion)]
      exact ih l2 (fun x hx => h x (List.mem_cons_of_mem a hx))

theorem getAccountLink_recordAccountLink (st : Store) (mid extID : String) :
    getAccountLink (recordAccountLink st mid extID) mid = some ⟨mid, extID⟩ := by
  unfold getAccountLink recordAccountLink
  rw [find?_append_left_none _ _ _ (by
    intro x hx
    have hpx := (List.mem_filter.mp hx).2
    simp only [Bool.not_eq_true'] at hpx
    exact hpx)]
  exact List.find?_cons_of_pos _ (by simp)

theorem linksFor_recordAccountLink_self (st : Store) (mid extID : String) :
    linksFor (recordAccountLink st mid extID) mid = [⟨mid, extID⟩] := by
  unfold linksFor recordAccountLink
  rw [List.filter_append]
  have h1 : List.filter (fun l => l.messagingID == mid)
      (List.filter (fun l => !(l.messagingID == mid)) st.links) = [] := by
    rw [List.filter_eq_nil_iff]
    intro a ha
    have hpa := (List.mem_filter.mp ha).2
    simp only [Bool.not_eq_true'] at hpa
    simp [hpa]
  rw [h1]
  simp

theorem filter_m_filter_not_mid (m mid : String) (hne : m ≠ mid) :
    ∀ xs : List AccountLink,
      List.filter (fun l => l.messagingID == m)
        (List.filter (fun l => !(l.messagingID == mid)) xs) =
      List.filter (fun l => l.messagingID == m) xs := by
  intro xs
  induction xs with
  | nil => rfl
  | cons a l ih =>
      by_cases hm : (a.messagingID == m) = true
      · have hmid : (a.messagingID == mid) = false := by
          rw [beq_iff_eq.mp hm]
          simp [hne]
        simp [List.filter_cons, hm, hmid, ih]
      · have hmf : (a.messagingID == m) = false := Bool.not_eq_true _ ▸ hm
        by_cases hmid : (a.messagingID == mid) = true
        · simp [List.filter_cons, hmf, hmid, ih]
        · simp [List.filter_cons, hmf, Bool.not_eq_true _ ▸ hmid, ih]

theorem linksFor_recordAccountLink_other (st : Store) (mid extID m : String)
    (hne : m ≠ mid) :
    linksFor (recordAccountLink st mid extID) m = linksFor st m := by
  unfold linksFor recordAccountLink
  rw [List.filter_append]
  have h2 : List.filter (fun l => l.messagingID == m) [(⟨mid, extID⟩ : AccountLink)] = [] := by
    have : (mid == m) = false := by
      simp only [beq_eq_false_iff_ne]
      exact fun e => hne e.symm
    simp [this]
  rw [h2, List.append_nil]
  exact filter_m_filter_not_mid m mid hne st.links

/-- C6: `LinkAccount` is last-write-wins — after a second `LinkAccount` for
the same messaging identity (with a valid, non-empty external account
identifier), `getAccountLink` returns only the most recently recorded
external account, exactly one link for that identity is stored, and links
of every other messaging identity are untouched, so at most one active link
per messaging identity is maintained. -/
theorem linkAccount_last_write_wins (st : Store) (mid a b : String) (hb : b ≠ "") :
    getAccountLink (LinkAccount (LinkAccount st mid a).1 mid b).1 mid =
      some ⟨mid, b⟩ ∧
    linksFor (LinkAccount (LinkAccount st mid a).1 mid b).1 mid = [⟨mid, b⟩] ∧
    (∀ m, m ≠ mid →
      linksFor (LinkAccount (LinkAccount st mid a).1 mid b).1 m = linksFor st m) := by
  have h2 : (LinkAccount (LinkAccount st mid a).1 mid b).1 =
      recordAccountLink (LinkAccount st mid a).1 mid b := by
    simp [LinkAccount, hb]
  rw [h2]
  refine ⟨getAccountLink_recordAccountLink _ mid b,
    linksFor_recordAccountLink_self _ mid b, ?_⟩
  intro m hm
  rw [linksFor_recordAccountLink_other _ mid b m hm]
  by_cases ha : a = ""
  · have h1 : (LinkAccount st mid a).1 = st := by simp [LinkAccount, ha]
    rw [h1]
  · have h1 : (LinkAccount st mid a).1 = recordAccountLink st mid a := by
      simp [LinkAccount, ha]
    rw [h1]
    exact linksFor_recordAccountLink_other st mid a m hm

theorem linkAccount_last_write_wins_witness :
    getAccountLink
        (LinkAccount (LinkAccount emptyStore "conv1" "acct-1").1 "conv1" "acct-42").1
        "conv1" = some ⟨"conv1", "acct-42"⟩ ∧
    linksFor
        (LinkAccount (LinkAccount emptyStore "conv1" "acct-1").1 "conv1" "acct-42").1
        "conv1" = [⟨"conv1", "acct-42"⟩] ∧
    linksFor
        (LinkAccount (LinkAccount emptyStore "conv1" "acct-1").1 "conv1" "acct-42").1
        "conv2" = linksFor emptyStore "conv2" :=
  have h := linkAccount_last_write_wins emptyStore "conv1" "acct-1" "acct-42" (by decide)
  ⟨h.1, h.2.1, h.2.2 "conv2" (by decide)⟩

/- ===================== Command wiring: mutex claims ===================== -/

/-- C7 (counterexample): the claim that every Store-mutating operation
serializes on the engine-wide lock fails on the wiring of `main.go` — the
mutex created at line 168 is passed only to the `add-work` and
`add-channel` handler constructors; the `refresh` registration (line 203),
a Store-mutating operation, receives no reference to it. -/
theorem mutating_commands_not_all_serialized : ¬ allMutatingSerialized := by
  intro h
  have hrefresh := h ⟨"refresh", true, false, true⟩ (by decide) (by decide)
  exact Bool.noConfusion hrefresh

/-- C7 (amended): exactly the `add-work` (AddWorkspace) and `add-channel`
(AddChannel) handlers are constructed with the engine-wide mutex; the
`refresh`, `refresh-all` and `link-teritori-account` handlers are
constructed without any reference to the lock, so only the AddWorkspace and
AddChannel critical sections can serialize on it. -/
theorem mutex_wiring (c : CommandReg) (hc : c ∈ registeredCommands) :
    c.receivesMutex = true ↔ (c.name = "add-work" ∨ c.name = "add-channel") := by
  fin_cases hc <;> simp

theorem mutex_wiring_witness :
    (⟨"refresh", true, false, true⟩ : CommandReg).receivesMutex = true ↔
      ((⟨"refresh", true, false, true⟩ : CommandReg).name = "add-work" ∨
       (⟨"refresh", true, false, true⟩ : CommandReg).name = "add-channel") :=
  mutex_wiring ⟨"refresh", true, false, true⟩ (by decide)

/- ===================== Ping command claim ===================== -/

/-- C8: the ping handler of `main.go` lines 190-195 replies "pong" exactly
when the triggering event is new and not a replay, and sends no reply for
replayed or already-seen events. -/
theorem ping_replies_iff_new_and_not_replay (ctx : BotContext) :
    pingCommandHandler ctx =
      (if ctx.IsNew = true ∧ ctx.IsReplay = false then ["pong"] else []) := by
  rcases ctx with ⟨r, n⟩
  cases r <;> cases n <;> simp [pingCommandHandler]

/- ===================== Run-group trace lemmas ===================== -/

theorem keyLoadAndDial_char_missing (o : RootOpts) (t : List Effect)
    (readOk : String → Bool) (dialOk botOk : Bool)
    (h : o.privatekeyPath = "" ∨ o.publickeyPath = "") :
    keyLoadAndDial o t readOk dialOk botOk = (t, .errHelpMissingKeys) := by
  unfold keyLoadAndDial
  rw [if_pos h]

theorem keyLoadAndDial_trace (o : RootOpts) (t : List Effect)
    (readOk : String → Bool) (dialOk botOk : Bool) :
    ∃ s : List Effect, (keyLoadAndDial o t readOk dialOk botOk).1 = t ++ s ∧
      ∀ p, Effect.readFile p ∈ s → p = o.privatekeyPath ∨ p = o.publickeyPath := by
  unfold keyLoadAndDial
  split
  · exact ⟨[], by simp, by simp⟩
  · split
    · refine ⟨[.readFile o.privatekeyPath], rfl, ?_⟩
      intro p hp
      simp at hp
      exact Or.inl hp
    · split
      · refine ⟨[.readFile o.privatekeyPath, .readFile o.publickeyPath], rfl, ?_⟩
        intro p hp
        simp at hp
        exact hp
      · split
        · refine ⟨[.readFile o.privatekeyPath, .readFile o.publickeyPath, .grpcDial], rfl, ?_⟩
          intro p hp
          simp at hp
          exact hp
        · split
          · refine ⟨[.readFile o.privatekeyPath, .readFile o.publickeyPath, .grpcDial,
              .newBot], by simp, ?_⟩
            intro p hp
            simp at hp
            exact hp
          · refine ⟨[.readFile o.privatekeyPath, .readFile o.publickeyPath, .grpcDial,
              .newBot, .startBot], by simp, ?_⟩
            intro p hp
            simp at hp
            exact hp

theorem keyLoadAndDial_reads_priv (o : RootOpts) (t : List Effect)
    (readOk : String → Bool) (dialOk botOk : Bool)
    (hne : ¬(o.privatekeyPath = "" ∨ o.publickeyPath = "")) :
    Effect.readFile o.privatekeyPath ∈ (keyLoadAndDial o t readOk dialOk botOk).1 := by
  unfold keyLoadAndDial
  rw [if_neg hne]
  split
  · simp
  · split
    · simp
    · split
      · simp
      · split
        · simp
        · simp

theorem botRunGroup_gen_ok (o : RootOpts) (readOk : String → Bool) (dialOk botOk : Bool)
    (hg : o.generateKeys = true) :
    botRunGroup o true true readOk dialOk botOk =
      keyLoadAndDial
        { o with privatekeyPath := "private.key", publickeyPath := "public.key" }
        [Effect.newSqliteDB, Effect.genKeys "private.key" "public.key"]
        readOk dialOk botOk := by
  simp [botRunGroup, hg]

theorem botRunGroup_gen_fail (o : RootOpts) (readOk : String → Bool) (dialOk botOk : Bool)
    (hg : o.generateKeys = true) :
    botRunGroup o true false readOk dialOk botOk =
      ([Effect.newSqliteDB, Effect.genKeys "private.key" "public.key"],
       .genKeysFailed) := by
  simp [botRunGroup, hg]

theorem botRunGroup_nogen (o : RootOpts) (genOk : Bool) (readOk : String → Bool)
    (dialOk botOk : Bool) (hg : o.generateKeys = false) :
    botRunGroup o true genOk readOk dialOk botOk =
      keyLoadAndDial o [Effect.newSqliteDB] readOk dialOk botOk := by
  simp [botRunGroup, hg]

/-- C9: whenever the generate-keys flag is set (and the preceding sqlite
init succeeded), the run group generates the keypair into "private.key" and
"public.key" via `GenKeys`, every subsequent key read is from exactly those
two paths, the whole run is independent of the values supplied via the
`-privatekeyPath` and `-publickeyPath` flags (they are overridden), and on a
successful generation the private key file is in fact read. -/
theorem generate_keys_overrides_flag_paths (o : RootOpts) (dbOk genOk : Bool)
    (readOk : String → Bool) (dialOk botOk : Bool)
    (hg : o.generateKeys = true) (hdb : dbOk = true) :
    Effect.genKeys "private.key" "public.key" ∈
      (botRunGroup o dbOk genOk readOk dialOk botOk).1 ∧
    (∀ p, Effect.readFile p ∈ (botRunGroup o dbOk genOk readOk dialOk botOk).1 →
      p = "private.key" ∨ p = "public.key") ∧
    (∀ p q, botRunGroup { o with privatekeyPath := p, publickeyPath := q }
        dbOk genOk readOk dialOk botOk =
      botRunGroup o dbOk genOk readOk dialOk botOk) ∧
    (genOk = true →
      Effect.readFile "private.key" ∈ (botRunGroup o dbOk genOk readOk dialOk botOk).1) := by
  subst hdb
  cases genOk with
  | false =>
      rw [botRunGroup_gen_fail o readOk dialOk botOk hg]
      refine ⟨by simp, ?_, ?_, ?_⟩
      · intro p hp
        simp at hp
      · intro p q
        exact botRunGroup_gen_fail { o with privatekeyPath := p, publickeyPath := q }
          readOk dialOk botOk hg
      · intro hgen
        exact Bool.noConfusion hgen
  | true =>
      rw [botRunGroup_gen_ok o readOk dialOk botOk hg]
      obtain ⟨s, hs, hread⟩ := keyLoadAndDial_trace
        { o with privatekeyPath := "private.key", publickeyPath := "public.key" }
        [Effect.newSqliteDB, Effect.genKeys "private.key" "public.key"]
        readOk dialOk botOk
      refine ⟨?_, ?_, ?_, ?_⟩
      · rw [hs]
        exact List.mem_append_left _ (by simp)
      · intro p hp
        rw [hs] at hp
        rcases List.mem_append.mp hp with hin | hin
        · simp at hin
        · exact hread p hin
      · intro p q
        exact botRunGroup_gen_ok { o with privatekeyPath := p, publickeyPath := q }
          readOk dialOk botOk hg
      · intro _
        exact keyLoadAndDial_reads_priv _ _ readOk dialOk botOk (by
          show ¬(("private.key" : String) = "" ∨ ("public.key" : String) = "")
          decide)

theorem generate_keys_overrides_flag_paths_witness :
    Effect.genKeys "private.key" "public.key" ∈
      (botRunGroup ⟨true, "flag-priv", "flag-pub"⟩ true true (fun _ => true) true true).1 ∧
    (botRunGroup ⟨true, "x", "y"⟩ true true (fun _ => true) true true =
      botRunGroup ⟨true, "flag-priv", "flag-pub"⟩ true true (fun _ => true) true true) ∧
    Effect.readFile "private.key" ∈
      (botRunGroup ⟨true, "flag-priv", "flag-pub"⟩ true true (fun _ => true) true true).1 :=
  have h := generate_keys_overrides_flag_paths ⟨true, "flag-priv", "flag-pub"⟩
    true true (fun _ => true) true true rfl rfl
  ⟨h.1, h.2.2.1 "x" "y", h.2.2.2 rfl⟩

/-- C10: if, after the optional key generation step, either key path is the
empty string, the run group returns the `flag.ErrHelp`-wrapping error of
line 154 and its effect trace contains no `grpc.Dial`, no `bertybot.New`
and no `bot.Start` — no network connection is attempted and no bot is
started without both key files. -/
theorem missing_key_paths_aborts_before_dial (o : RootOpts) (dbOk genOk : Bool)
    (readOk : String → Bool) (dialOk botOk : Bool)
    (hdb : dbOk = true)
    (hempty : (effectiveKeyPaths o).1 = "" ∨ (effectiveKeyPaths o).2 = "") :
    (botRunGroup o dbOk genOk readOk dialOk botOk).2 = .errHelpMissingKeys ∧
    wrapsFlagErrHelp (botRunGroup o dbOk genOk readOk dialOk botOk).2 = true ∧
    Effect.grpcDial ∉ (botRunGroup o dbOk genOk readOk dialOk botOk).1 ∧
    Effect.newBot ∉ (botRunGroup o dbOk genOk readOk dialOk botOk).1 ∧
    Effect.startBot ∉ (botRunGroup o dbOk genOk readOk dialOk botOk).1 := by
  subst hdb
  cases hg : o.generateKeys with
  | true =>
      exfalso
      unfold effectiveKeyPaths at hempty
      rw [if_pos hg] at hempty
      rcases hempty with he | he <;> exact absurd he (by decide)
  | false =>
      unfold effectiveKeyPaths at hempty
      rw [if_neg (by rw [hg]; exact Bool.noConfusion)] at hempty
      rw [botRunGroup_nogen o genOk readOk dialOk botOk hg]
      rw [keyLoadAndDial_char_missing o [Effect.newSqliteDB] readOk dialOk botOk hempty]
      refine ⟨rfl, rfl, by simp, by simp, by simp⟩

theorem missing_key_paths_aborts_before_dial_witness :
    (botRunGroup ⟨false, "", "public.key"⟩ true true (fun _ => true) true true).2 =
      RunOutcome.errHelpMissingKeys ∧
    wrapsFlagErrHelp
      (botRunGroup ⟨false, "", "public.key"⟩ true true (fun _ => true) true true).2 = true ∧
    Effect.grpcDial ∉
      (botRunGroup ⟨false, "", "public.key"⟩ true true (fun _ => true) true true).1 ∧
    Effect.newBot ∉
      (botRunGroup ⟨false, "", "public.key"⟩ true true (fun _ => true) true true).1 ∧
    Effect.startBot ∉
      (botRunGroup ⟨false, "", "public.key"⟩ true true (fun _ => true) true true).1 :=
  missing_key_paths_aborts_before_dial ⟨false, "", "public.key"⟩ true true
    (fun _ => true) true true rfl (by decide)
